import Mathlib

/-!
Shallow embedding of the payload-cms-collection-archiver core
(src/backupService.js and src/utils/fetchPayloadClient.js).

The network, the file system and the console are external collaborators:
each network request is modelled as an oracle returning an
`Except String` value (a thrown JS error is `.error message`), and each
persistence call as an oracle returning `Except String Unit`.  Logging
(console output, FileManager.addLog) touches no modelled state and is
dropped.  JS documents are modelled as JSON objects.
-/

namespace Archiver

/-- A JSON value, as a Payload document field holds one.  JS structural
inspection (typeof) only looks at the head constructor. -/
inductive JsonVal where
  | null : JsonVal
  | bool (b : Bool) : JsonVal
  | num (n : Int) : JsonVal
  | str (s : String) : JsonVal
  | arr (elems : List JsonVal) : JsonVal
  | obj (fields : List (String × JsonVal)) : JsonVal

/-- A document: a JSON object, the unit of backup. -/
abbrev Doc := List (String × JsonVal)

/-- One paginated response of GET /collection?page=..  (docs, totalDocs,
hasNextPage, nextPage), the shape consumed by getAllCollectionData. -/
structure Page where
  docs : List Doc
  totalDocs : Nat
  hasNextPage : Bool
  nextPage : Option Nat

/-- One entry of stats.errors: discovery errors carry the collection name,
general errors carry none (backupService.js pushes both shapes). -/
structure ErrEntry where
  collection : Option String
  phase : String
  error : String
deriving DecidableEq

/-- The this.stats object of BackupService, as initialized in the
constructor and mutated over a run.  Clock readings are opaque Nat. -/
structure Stats where
  startTime : Option Nat
  endTime : Option Nat
  totalCollections : Nat
  totalRecords : Nat
  successfulCollections : Nat
  failedCollections : Nat
  errors : List ErrEntry
deriving DecidableEq

/-- The stats value the BackupService constructor installs. -/
def initialStats : Stats :=
  { startTime := none, endTime := none, totalCollections := 0, totalRecords := 0
    successfulCollections := 0, failedCollections := 0, errors := [] }

/-- One inferred field of a schema descriptor: name, JS typeof string,
and whether the sampled value is non-null. -/
structure SchemaField where
  name : String
  type : String
  hasValue : Bool
deriving DecidableEq

/-- The object getCollectionSchema returns; error is some message exactly
when the underlying request failed (the catch branch). -/
structure SchemaDescriptor where
  collection : String
  fields : List SchemaField
  totalDocs : Nat
  sampleDoc : Option Doc
  error : Option String

/-- One element of the list BackupService.discoverCollections returns. -/
structure CollectionInfo where
  name : String
  count : Nat
  schema : SchemaDescriptor
  hasData : Bool

/-- The GET /access response; only the keys of collections are consumed
(permission payloads are irrelevant to the core, modelled as Unit). -/
structure Access where
  canAccessAdmin : Bool
  collections : List (String × Unit)

/-- One element of BackupResult.collections. -/
structure CollectionResult where
  name : String
  recordCount : Nat
  backupSuccess : Bool
deriving DecidableEq

/-- The object BackupService.getBackupResult builds. -/
structure BackupResult where
  success : Bool
  environment : String
  backupPath : Option String
  statistics : Stats
  collections : List CollectionResult
deriving DecidableEq

/-- JS typeof of a parsed JSON value (null and composites are object). -/
def jsTypeof : JsonVal → String
  | .null => "object"
  | .bool _ => "boolean"
  | .num _ => "number"
  | .str _ => "string"
  | .arr _ => "object"
  | .obj _ => "object"

/-- The hasValue test of getCollectionSchema: value is neither null nor
undefined (parsed JSON has no undefined). -/
def jsHasValue : JsonVal → Bool
  | .null => false
  | _ => true

/-- The truthiness of (data.nextPage && data.nextPage > currentPage):
null and 0 are falsy. -/
def nextPageGt (nextPage : Option Nat) (currentPage : Nat) : Bool :=
  match nextPage with
  | some np => decide (currentPage < np)
  | none => false

/-- The continuation test of getAllCollectionData:
data.hasNextPage || (data.nextPage && data.nextPage > currentPage). -/
def pageHasNext (data : Page) (currentPage : Nat) : Bool :=
  data.hasNextPage || nextPageGt data.nextPage currentPage

/-- The while loop of FetchPayloadClient.getAllCollectionData.  fetchPage
maps a page number to that page request's outcome; a thrown request error
is caught (the catch sets hasNextPage = false) and the accumulator is kept.
Fuel bounds the number of iterations, which the JS loop does not: every
claim about the loop is stated with enough fuel to cover the pages it
actually visits. -/
def fetchAllLoop (fetchPage : Nat → Except String Page) :
    Nat → Nat → List Doc → List Doc
  | 0, _, allDocs => allDocs
  | fuel + 1, currentPage, allDocs =>
    match fetchPage currentPage with
    | .error _ => allDocs
    | .ok data =>
      if 0 < data.docs.length then
        if pageHasNext data currentPage then
          fetchAllLoop fetchPage fuel (currentPage + 1) (allDocs ++ data.docs)
        else allDocs ++ data.docs
      else allDocs

/-- FetchPayloadClient.getAllCollectionData: start at page 1 with an empty
accumulator.  The return type List Doc (not Except) reflects that no page
failure propagates out of this operation. -/
def getAllCollectionData (fetchPage : Nat → Except String Page) (fuel : Nat) : List Doc :=
  fetchAllLoop fetchPage fuel 1 []

/-- The docs carried by a page outcome (a failed request carries none). -/
def docsOf (r : Except String Page) : List Doc :=
  match r with
  | .ok data => data.docs
  | .error _ => []

/-- Documents of len consecutive pages starting at page start, in page
order: the reference value for partial-pagination claims. -/
def pageSpan (fetchPage : Nat → Except String Page) : Nat → Nat → List Doc
  | _, 0 => []
  | start, len + 1 => docsOf (fetchPage start) ++ pageSpan fetchPage (start + 1) len

/-- FetchPayloadClient.getCollectionSchema: probe is the outcome of the
limit = 1 data request.  A failed request is caught and reported through
the error field; an empty collection yields fields = []. -/
def getCollectionSchema (collection : String) (probe : Except String Page) : SchemaDescriptor :=
  match probe with
  | .error e =>
    { collection := collection, fields := [], totalDocs := 0, sampleDoc := none, error := some e }
  | .ok data =>
    match data.docs with
    | [] =>
      { collection := collection, fields := [], totalDocs := 0, sampleDoc := none, error := none }
    | sampleDoc :: _ =>
      { collection := collection
        fields := sampleDoc.map fun kv =>
          { name := kv.1, type := jsTypeof kv.2, hasValue := jsHasValue kv.2 }
        totalDocs := data.totalDocs
        sampleDoc := some sampleDoc
        error := none }

/-- FetchPayloadClient.discoverCollections: the keys of access.collections;
a failed access request is rethrown with a wrapping message. -/
def clientDiscoverCollections (accessResult : Except String Access) : Except String (List String) :=
  match accessResult with
  | .ok access => .ok (access.collections.map Prod.fst)
  | .error e => .error ("Failed to discover collections: " ++ e)

/-- BackupService.validateConnection: true on a successful access call,
false when the call throws (the error is caught, never rethrown). -/
def validateConnection (accessResult : Except String Access) : Bool :=
  match accessResult with
  | .ok _ => true
  | .error _ => false

/-- The external world of one performBackup run: the outcome of each
request and persistence call the run may make.  configResult stands for
getEnvConfig (throws on unknown env or missing variables); validateAccess
and discoverAccess are the two separate GET /access outcomes; countResult,
schemaPage and dataPage map a collection (and page) to the corresponding
request outcome; saveDataResult and saveSchemaResult are the FileManager
persistence outcomes.  fuel bounds pagination, clocks are opaque. -/
structure RunOracle where
  configResult : Except String Unit
  validateAccess : Except String Access
  discoverAccess : Except String Access
  countResult : String → Except String Nat
  schemaPage : String → Except String Page
  dataPage : String → Nat → Except String Page
  saveDataResult : String → List Doc → Except String Unit
  saveSchemaResult : String → Except String Unit
  fuel : Nat
  backupDir : String
  startClock : Nat
  endClock : Nat

/-- The CollectionInfo pushed for a collection whose count probe returned
count (the try body of the discovery loop). -/
def analyzedInfo (o : RunOracle) (collection : String) (count : Nat) : CollectionInfo :=
  { name := collection
    count := count
    schema := getCollectionSchema collection (o.schemaPage collection)
    hasData := decide (0 < count) }

/-- One iteration of the discovery loop of BackupService.discoverCollections
over (collectionInfos, stats): getCollectionCount may throw (caught:
a discovery ErrEntry is appended and the collection is skipped);
getCollectionSchema never throws, so a collection whose count succeeded is
always pushed. -/
def analyzeOne (o : RunOracle) (acc : List CollectionInfo × Stats) (collection : String) :
    List CollectionInfo × Stats :=
  match o.countResult collection with
  | .error e =>
    (acc.1,
     { acc.2 with errors :=
        acc.2.errors ++ [{ collection := some collection, phase := "discovery", error := e }] })
  | .ok count => (acc.1 ++ [analyzedInfo o collection count], acc.2)

/-- The discovery loop over all candidate collection names. -/
def analyzeCollections (o : RunOracle) (names : List String)
    (acc : List CollectionInfo × Stats) : List CollectionInfo × Stats :=
  names.foldl (analyzeOne o) acc

/-- BackupService.discoverCollections: candidate names come from the
client's access call (a failure there is rethrown to performBackup);
each candidate is analyzed in order starting from empty collectionInfos. -/
def discoverCollections (o : RunOracle) (stats : Stats) :
    Except String (List CollectionInfo × Stats) :=
  match clientDiscoverCollections o.discoverAccess with
  | .error e => .error e
  | .ok names => .ok (analyzeCollections o names ([], stats))

/-- A persistence side effect that completed: which artifact was written. -/
inductive WriteEffect where
  | dataFile (collection : String) : WriteEffect
  | schemaFile (collection : String) : WriteEffect
deriving DecidableEq

/-- BackupService.backupCollection: (new stats, returned boolean, artifacts
written).  count = 0 skips with success and touches nothing.  Otherwise all
documents are fetched (getAllCollectionData absorbs page failures and cannot
throw), then data and schema are persisted; a throw from either persistence
call is caught: failedCollections is incremented, one backup-phase ErrEntry
is appended, and false is returned. -/
def backupCollection (o : RunOracle) (stats : Stats) (info : CollectionInfo) :
    Stats × Bool × List WriteEffect :=
  if info.count = 0 then (stats, true, [])
  else
    let data := getAllCollectionData (o.dataPage info.name) o.fuel
    match o.saveDataResult info.name data with
    | .error e =>
      ({ stats with
          failedCollections := stats.failedCollections + 1
          errors := stats.errors ++ [{ collection := some info.name, phase := "backup", error := e }] },
       false, [])
    | .ok _ =>
      match o.saveSchemaResult info.name with
      | .error e =>
        ({ stats with
            failedCollections := stats.failedCollections + 1
            errors := stats.errors ++ [{ collection := some info.name, phase := "backup", error := e }] },
         false, [.dataFile info.name])
      | .ok _ =>
        ({ stats with
            totalRecords := stats.totalRecords + data.length
            successfulCollections := stats.successfulCollections + 1 },
         true, [.dataFile info.name, .schemaFile info.name])

/-- The push of a phase general ErrEntry (the top-level catch of
performBackup). -/
def pushGeneralError (stats : Stats) (msg : String) : Stats :=
  { stats with errors := stats.errors ++ [{ collection := none, phase := "general", error := msg }] }

/-- The backup loop of performBackup: collections in order, keeping only
the stats mutation (the returned booleans and effects are dropped there). -/
def backupAll (o : RunOracle) (stats : Stats) (collections : List CollectionInfo) : Stats :=
  collections.foldl (fun s info => (backupCollection o s info).1) stats

/-- BackupService.getBackupResult, reading the current stats. -/
def getBackupResult (env : String) (backupDir : Option String)
    (collections : List CollectionInfo) (stats : Stats) : BackupResult :=
  { success := decide (stats.failedCollections = 0) && decide (stats.errors.length = 0)
    environment := env
    backupPath := backupDir
    statistics := stats
    collections := collections.map fun col =>
      { name := col.name
        recordCount := col.count
        backupSuccess := ! stats.errors.any fun err => decide (err.collection = some col.name) } }

/-- The pipeline of BackupService.performBackup on the service state
stats0: (the backupPath-producing fileManager argument of the final
getBackupResult call — none when the top-level catch fired; the
collections argument of that call; the final stats; the phases attempted).
startTime is set first; a config failure, a failed connection validation
(rethrown as the connection-failed error) or a discovery-access failure
reaches the top-level catch: a general ErrEntry is pushed and the
fileManager argument is null.  With no collections discovered the run
returns early; otherwise every collection is backed up in order and the
final report (endTime, metadata, summary — the latter two are pure side
effects) is produced. -/
def performBackupCore (o : RunOracle) (stats0 : Stats) :
    Option String × List CollectionInfo × Stats × List String :=
  let stats := { stats0 with startTime := some o.startClock }
  match o.configResult with
  | .error e => (none, [], pushGeneralError stats e, [])
  | .ok _ =>
    if validateConnection o.validateAccess then
      match discoverCollections o stats with
      | .error e => (none, [], pushGeneralError stats e, ["validate", "discovery"])
      | .ok (collections, stats1) =>
        let stats2 := { stats1 with totalCollections := collections.length }
        if collections.length = 0 then
          (some o.backupDir, [], stats2, ["validate", "discovery"])
        else
          let stats3 := backupAll o stats2 collections
          (some o.backupDir, collections, { stats3 with endTime := some o.endClock },
           ["validate", "discovery", "backup"])
    else
      (none, [], pushGeneralError stats "API connection failed, cannot continue backup",
       ["validate"])

/-- BackupService.performBackup: every return path of the JS method returns
this.getBackupResult(env, fileManager-or-null, collections) with the stats
current at that moment, so the run is the core pipeline followed by one
result construction.  Yields (returned BackupResult, final stats, phases
attempted). -/
def performBackup (o : RunOracle) (env : String) (stats0 : Stats) :
    BackupResult × Stats × List String :=
  let core := performBackupCore o stats0
  (getBackupResult env core.1 core.2.1 core.2.2.1, core.2.2.1, core.2.2.2)

/-- A FetchPayloadClient operation that issues a network request.
getAccess, getCollectionCount and getCollectionData are dispatched through
limitedRequest (the p-limit gate built in the constructor);
testBasicConnection calls this.request directly, bypassing the gate. -/
inductive ClientOp where
  | getAccess : ClientOp
  | getCollectionCount (collection : String) : ClientOp
  | getCollectionData (collection : String) (page : Nat) : ClientOp
  | testBasicConnection : ClientOp
deriving DecidableEq

/-- Whether the operation's request is admitted through this.limit. -/
def ClientOp.usesLimit : ClientOp → Bool
  | .testBasicConnection => false
  | _ => true

/-- A request lifecycle event: the request of op is dispatched, or it
settles (response, error or timeout). -/
inductive ReqEvent where
  | start (op : ClientOp) : ReqEvent
  | settle (op : ClientOp) : ReqEvent
deriving DecidableEq

/-- The traces the client's admission discipline allows, from a state with
g gated and u ungated requests in flight under concurrency limit cap: a
gated start is admitted only while fewer than cap gated requests are in
flight (the p-limit semaphore); an ungated start (testBasicConnection) is
never blocked; any in-flight request may settle at any time. -/
inductive ValidTrace (cap : Nat) : Nat → Nat → List ReqEvent → Prop where
  | nil (g u : Nat) : ValidTrace cap g u []
  | startGated (g u : Nat) (op : ClientOp) (tr : List ReqEvent) :
      op.usesLimit = true → g < cap → ValidTrace cap (g + 1) u tr →
      ValidTrace cap g u (.start op :: tr)
  | startUngated (g u : Nat) (op : ClientOp) (tr : List ReqEvent) :
      op.usesLimit = false → ValidTrace cap g (u + 1) tr →
      ValidTrace cap g u (.start op :: tr)
  | settleGated (g u : Nat) (op : ClientOp) (tr : List ReqEvent) :
      op.usesLimit = true → ValidTrace cap g u tr →
      ValidTrace cap (g + 1) u (.settle op :: tr)
  | settleUngated (g u : Nat) (op : ClientOp) (tr : List ReqEvent) :
      op.usesLimit = false → ValidTrace cap g u tr →
      ValidTrace cap g (u + 1) (.settle op :: tr)

/-- The in-flight counters (gated, ungated) after one event. -/
def stepEvent (s : Nat × Nat) (e : ReqEvent) : Nat × Nat :=
  match e with
  | .start op => if op.usesLimit then (s.1 + 1, s.2) else (s.1, s.2 + 1)
  | .settle op => if op.usesLimit then (s.1 - 1, s.2) else (s.1, s.2 - 1)

/-- Every counter state visited along a trace, the initial one included. -/
def statesAlong (s : Nat × Nat) : List ReqEvent → List (Nat × Nat)
  | [] => [s]
  | e :: tr => s :: statesAlong (stepEvent s e) tr

/-- Componentwise growth of the run counters: s2 extends s1 by further
work (each counter at least as large, the error list extended at the end).
The accumulation claims about repeated performBackup calls are stated
through this relation. -/
def StatsLE (s1 s2 : Stats) : Prop :=
  s1.totalRecords ≤ s2.totalRecords ∧
  s1.successfulCollections ≤ s2.successfulCollections ∧
  s1.failedCollections ≤ s2.failedCollections ∧
  ∃ t, s2.errors = s1.errors ++ t

/-- A fully cooperative external world: one collection (users) holding two
documents on a single page, all requests and persistence calls succeed. -/
def baseOracle : RunOracle :=
  { configResult := .ok ()
    validateAccess := .ok { canAccessAdmin := true, collections := [("users", ())] }
    discoverAccess := .ok { canAccessAdmin := true, collections := [("users", ())] }
    countResult := fun _ => .ok 2
    schemaPage := fun _ =>
      .ok { docs := [[("id", JsonVal.num 1), ("title", JsonVal.str "hello")]]
            totalDocs := 2, hasNextPage := false, nextPage := none }
    dataPage := fun _ page =>
      if page = 1 then
        .ok { docs := [[("id", JsonVal.num 1)], [("id", JsonVal.num 2)]]
              totalDocs := 2, hasNextPage := false, nextPage := none }
      else .error "HTTP 404: Not Found"
    saveDataResult := fun _ _ => .ok ()
    saveSchemaResult := fun _ => .ok ()
    fuel := 10
    backupDir := "backup/test/2026-01-01T00-00-00-000Z"
    startClock := 0
    endClock := 60 }

/-- A page oracle whose first two pages succeed (with a further page
announced) and whose third page request fails. -/
def pagesFailAt3 : Nat → Except String Page
  | 1 => .ok { docs := [[("id", JsonVal.num 1)], [("id", JsonVal.num 2)]]
               totalDocs := 5, hasNextPage := true, nextPage := some 2 }
  | 2 => .ok { docs := [[("id", JsonVal.num 3)]]
               totalDocs := 5, hasNextPage := true, nextPage := some 3 }
  | _ => .error "Request timeout: /users?page=3"

/-- A world where the users schema probe request fails while its count
probe succeeds. -/
def schemaFailOracle : RunOracle :=
  { baseOracle with
    countResult := fun _ => .ok 5
    schemaPage := fun _ => .error "HTTP 500: Internal Server Error" }

/-- A world with three collections whose middle one (media) fails its
count probe. -/
def discoveryFailOracle : RunOracle :=
  { baseOracle with
    discoverAccess :=
      .ok { canAccessAdmin := true
            collections := [("users", ()), ("media", ()), ("posts", ())] }
    countResult := fun n => if n = "media" then .error "HTTP 403: Forbidden" else .ok 2 }

/-- A world where persisting collection data fails (disk full). -/
def saveFailOracle : RunOracle :=
  { baseOracle with
    saveDataResult := fun _ _ => .error "ENOSPC: no space left on device" }

/-- A world where the validation access request times out. -/
def connectionFailOracle : RunOracle :=
  { baseOracle with validateAccess := .error "Request timeout: /access" }

/-- A world where resolving the environment configuration throws. -/
def configFailOracle : RunOracle :=
  { baseOracle with
    configResult := .error "Missing required environment variables for test environment. Please check your .env file." }

/-- The discovery output for users under baseOracle (count 2, one-page
schema sample). -/
def usersInfo : CollectionInfo :=
  { name := "users"
    count := 2
    schema := getCollectionSchema "users" (baseOracle.schemaPage "users")
    hasData := true }

/-- A collection discovered with count 0. -/
def draftsInfo : CollectionInfo :=
  { name := "drafts"
    count := 0
    schema := { collection := "drafts", fields := [], totalDocs := 0, sampleDoc := none, error := none }
    hasData := false }

/-- A trace of gated requests only: two sequential access calls, the
second still in flight. -/
def gatedTraceEx : List ReqEvent :=
  [.start .getAccess, .settle .getAccess, .start (.getCollectionCount "users")]

/-- Two concurrent testBasicConnection requests, both in flight. -/
def ungatedTraceEx : List ReqEvent :=
  [.start .testBasicConnection, .start .testBasicConnection]

/-! ## Helper lemmas -/

theorem getBackupResult_success_iff (env : String) (backupDir : Option String)
    (collections : List CollectionInfo) (stats : Stats) :
    ((getBackupResult env backupDir collections stats).success = true) ↔
      (stats.failedCollections = 0 ∧ stats.errors = []) := by
  simp [getBackupResult, List.length_eq_zero]

/-! ## C1 -/

/-- C1: for every completed run, the success flag of the returned
BackupResult is true iff stats.failedCollections = 0 and stats.errors is
empty — stated both for getBackupResult on arbitrary stats (any
combination of skipped, successful and failed collections) and for the
result of every performBackup run. -/
theorem success_iff_no_failures_and_no_errors :
    (∀ (env : String) (backupDir : Option String) (collections : List CollectionInfo) (stats : Stats),
      ((getBackupResult env backupDir collections stats).success = true ↔
        stats.failedCollections = 0 ∧ stats.errors = [])) ∧
    (∀ (o : RunOracle) (env : String) (stats0 : Stats),
      ((performBackup o env stats0).1.success = true ↔
        (performBackup o env stats0).1.statistics.failedCollections = 0 ∧
        (performBackup o env stats0).1.statistics.errors = [])) := by
  constructor
  · exact getBackupResult_success_iff
  · intro o env stats0
    exact getBackupResult_success_iff env (performBackupCore o stats0).1
      (performBackupCore o stats0).2.1 (performBackupCore o stats0).2.2.1

/-! ## C7 -/

/-- C7: for every collection with count = 0, backupCollection returns true,
writes no data or schema artifact, and leaves every stats field unchanged
(so the collection never enters stats.errors). -/
theorem backupCollection_empty_skips (o : RunOracle) (stats : Stats)
    (info : CollectionInfo) (hcount : info.count = 0) :
    backupCollection o stats info = (stats, true, []) := by
  simp [backupCollection, hcount]

theorem backupCollection_empty_skips_witness :
    backupCollection baseOracle initialStats draftsInfo = (initialStats, true, []) :=
  backupCollection_empty_skips baseOracle initialStats draftsInfo rfl

/-! ## C4 -/

/-- C4: for every collection with count > 0 whose data and schema
persistence both succeed, backupCollection adds exactly the length of the
getAllCollectionData result to stats.totalRecords, adds exactly 1 to
stats.successfulCollections, leaves the other stats fields unchanged, and
returns true (having written both artifacts). -/
theorem backupCollection_success (o : RunOracle) (stats : Stats) (info : CollectionInfo)
    (hcount : 0 < info.count)
    (hdata : o.saveDataResult info.name (getAllCollectionData (o.dataPage info.name) o.fuel) = .ok ())
    (hschema : o.saveSchemaResult info.name = .ok ()) :
    backupCollection o stats info =
      ({ stats with
          totalRecords := stats.totalRecords + (getAllCollectionData (o.dataPage info.name) o.fuel).length
          successfulCollections := stats.successfulCollections + 1 },
       true, [.dataFile info.name, .schemaFile info.name]) := by
  have h0 : ¬ info.count = 0 := by omega
  simp [backupCollection, h0, hdata, hschema]

theorem backupCollection_success_witness :
    backupCollection baseOracle initialStats usersInfo =
      ({ initialStats with totalRecords := 2, successfulCollections := 1 },
       true, [.dataFile "users", .schemaFile "users"]) := by
  have h := backupCollection_success baseOracle initialStats usersInfo (by decide) rfl rfl
  exact h.trans (by rfl)

/-! ## C5 -/

/-- C5: for every collection with count > 0, whenever an exception is
raised during fetch or persistence (getAllCollectionData absorbs page
failures and cannot throw, so the raisable exceptions are the persistence
ones: saving the data file, or saving the schema file after the data file
succeeded), backupCollection catches it, adds exactly 1 to
stats.failedCollections, appends exactly one ErrEntry with the collection
name and phase backup, leaves stats.totalRecords and
stats.successfulCollections unchanged, and returns false. -/
theorem backupCollection_failure (o : RunOracle) (stats : Stats) (info : CollectionInfo)
    (e : String) (hcount : 0 < info.count)
    (hthrow :
      o.saveDataResult info.name (getAllCollectionData (o.dataPage info.name) o.fuel) = .error e ∨
      (o.saveDataResult info.name (getAllCollectionData (o.dataPage info.name) o.fuel) = .ok () ∧
        o.saveSchemaResult info.name = .error e)) :
    (backupCollection o stats info).1 =
      { stats with
          failedCollections := stats.failedCollections + 1
          errors := stats.errors ++ [{ collection := some info.name, phase := "backup", error := e }] } ∧
    (backupCollection o stats info).2.1 = false := by
  have h0 : ¬ info.count = 0 := by omega
  rcases hthrow with hdata | ⟨hdata, hschema⟩
  · constructor <;> simp [backupCollection, h0, hdata]
  · constructor <;> simp [backupCollection, h0, hdata, hschema]

theorem backupCollection_failure_witness :
    (backupCollection saveFailOracle initialStats usersInfo).1 =
      { initialStats with
          failedCollections := 1
          errors := [{ collection := some "users", phase := "backup"
                       error := "ENOSPC: no space left on device" }] } ∧
    (backupCollection saveFailOracle initialStats usersInfo).2.1 = false := by
  have h := backupCollection_failure saveFailOracle initialStats usersInfo
    "ENOSPC: no space left on device" (by decide) (Or.inl rfl)
  exact ⟨h.1.trans (by rfl), h.2⟩

/-! ## C2 -/

theorem fetchAllLoop_failure (fetchPage : Nat → Except String Page) :
    ∀ (fuel j k : Nat) (acc : List Doc), j ≤ k → k - j < fuel →
    (∀ i, j ≤ i → i < k →
      ∃ p, fetchPage i = .ok p ∧ 0 < p.docs.length ∧ pageHasNext p i = true) →
    (∃ e, fetchPage k = .error e) →
    fetchAllLoop fetchPage fuel j acc = acc ++ pageSpan fetchPage j (k - j) := by
  intro fuel
  induction fuel with
  | zero => intro j k acc hjk hfuel hok herr; omega
  | succ fuel ih =>
    intro j k acc hjk hfuel hok herr
    rcases Nat.eq_or_lt_of_le hjk with rfl | hlt
    · rcases herr with ⟨e, he⟩
      simp [fetchAllLoop, he, pageSpan, Nat.sub_self]
    · rcases hok j le_rfl hlt with ⟨p, hp, hpd, hpn⟩
      have hstep : fetchAllLoop fetchPage (fuel + 1) j acc =
          fetchAllLoop fetchPage fuel (j + 1) (acc ++ p.docs) := by
        simp [fetchAllLoop, hp, hpd, hpn]
      rw [hstep,
        ih (j + 1) k (acc ++ p.docs) hlt (by omega)
          (fun i h1 h2 => hok i (by omega) h2) herr]
      have hspan : k - j = (k - (j + 1)) + 1 := by omega
      rw [hspan]
      simp [pageSpan, docsOf, hp, List.append_assoc]

/-- C2: if pages j = 1, …, k−1 each succeed with documents and announce a
further page, and the request for page k fails, then getAllCollectionData
(with fuel covering the visited pages) stops at the failure and returns
exactly the documents of pages 1 … k−1 concatenated in page order; the
failure does not propagate (the operation's type is List Doc, not Except:
the catch branch of the JS loop only ends the loop). -/
theorem getAllCollectionData_truncates_on_failure (fetchPage : Nat → Except String Page)
    (fuel k : Nat) (hk : 1 ≤ k) (hfuel : k ≤ fuel)
    (hok : ∀ i, 1 ≤ i → i < k →
      ∃ p, fetchPage i = .ok p ∧ 0 < p.docs.length ∧ pageHasNext p i = true)
    (herr : ∃ e, fetchPage k = .error e) :
    getAllCollectionData fetchPage fuel = pageSpan fetchPage 1 (k - 1) := by
  have h := fetchAllLoop_failure fetchPage fuel 1 k [] hk (by omega) hok herr
  simpa [getAllCollectionData] using h

theorem getAllCollectionData_truncates_on_failure_witness :
    getAllCollectionData pagesFailAt3 10 =
      [[("id", JsonVal.num 1)], [("id", JsonVal.num 2)], [("id", JsonVal.num 3)]] := by
  have h := getAllCollectionData_truncates_on_failure pagesFailAt3 10 3 (by decide) (by decide)
    (by
      intro i h1 h2
      interval_cases i
      · exact ⟨_, rfl, by decide, by decide⟩
      · exact ⟨_, rfl, by decide, by decide⟩)
    ⟨"Request timeout: /users?page=3", rfl⟩
  exact h.trans (by rfl)

/-! ## Discovery-loop lemmas -/

theorem analyzeCollections_nil (o : RunOracle) (acc : List CollectionInfo × Stats) :
    analyzeCollections o [] acc = acc := rfl

theorem analyzeCollections_cons (o : RunOracle) (n : String) (ns : List String)
    (acc : List CollectionInfo × Stats) :
    analyzeCollections o (n :: ns) acc = analyzeCollections o ns (analyzeOne o acc n) := rfl

theorem analyzeCollections_append (o : RunOracle) (l1 l2 : List String)
    (acc : List CollectionInfo × Stats) :
    analyzeCollections o (l1 ++ l2) acc = analyzeCollections o l2 (analyzeCollections o l1 acc) := by
  simp [analyzeCollections, List.foldl_append]

theorem analyzeCollections_all_ok (o : RunOracle) :
    ∀ (names : List String) (acc : List CollectionInfo × Stats),
    (∀ n, n ∈ names → ∃ c, o.countResult n = .ok c) →
    (analyzeCollections o names acc).2 = acc.2 ∧
    (analyzeCollections o names acc).1.length = acc.1.length + names.length := by
  intro names
  induction names with
  | nil => intro acc h; simp [analyzeCollections_nil]
  | cons n ns ih =>
    intro acc h
    rcases h n (by simp) with ⟨c, hc⟩
    have hstep : analyzeOne o acc n = (acc.1 ++ [analyzedInfo o n c], acc.2) := by
      simp [analyzeOne, hc]
    have h2 := ih (analyzeOne o acc n) (fun m hm => h m (by simp [hm]))
    rw [analyzeCollections_cons]
    refine ⟨by rw [h2.1, hstep], ?_⟩
    rw [h2.2, hstep]
    simp [List.length_append]
    omega

theorem analyzeCollections_errors_from_failures (o : RunOracle) :
    ∀ (names : List String) (acc : List CollectionInfo × Stats),
    ∃ t, (analyzeCollections o names acc).2.errors = acc.2.errors ++ t ∧
      ∀ err ∈ t, ∃ n, n ∈ names ∧ err.collection = some n ∧
        ∃ e, o.countResult n = .error e := by
  intro names
  induction names with
  | nil =>
    intro acc
    exact ⟨[], by simp [analyzeCollections_nil], by simp⟩
  | cons n ns ih =>
    intro acc
    rcases ih (analyzeOne o acc n) with ⟨t, ht, hsrc⟩
    rw [analyzeCollections_cons]
    cases hc : o.countResult n with
    | error e =>
      have hstep : (analyzeOne o acc n).2.errors =
          acc.2.errors ++ [{ collection := some n, phase := "discovery", error := e }] := by
        simp [analyzeOne, hc]
      refine ⟨{ collection := some n, phase := "discovery", error := e } :: t, ?_, ?_⟩
      · rw [ht, hstep]
        simp
      · intro err herr
        rcases List.mem_cons.mp herr with rfl | herr
        · exact ⟨n, by simp, rfl, e, hc⟩
        · rcases hsrc err herr with ⟨m, hm, hcoll, e2, he2⟩
          exact ⟨m, by simp [hm], hcoll, e2, he2⟩
    | ok c =>
      have hstep : (analyzeOne o acc n).2.errors = acc.2.errors := by
        simp [analyzeOne, hc]
      refine ⟨t, by rw [ht, hstep], ?_⟩
      intro err herr
      rcases hsrc err herr with ⟨m, hm, hcoll, e2, he2⟩
      exact ⟨m, by simp [hm], hcoll, e2, he2⟩

theorem analyzeCollections_infos_extend (o : RunOracle) :
    ∀ (names : List String) (acc : List CollectionInfo × Stats),
    ∃ t, (analyzeCollections o names acc).1 = acc.1 ++ t := by
  intro names
  induction names with
  | nil => intro acc; exact ⟨[], by simp [analyzeCollections_nil]⟩
  | cons n ns ih =>
    intro acc
    rcases ih (analyzeOne o acc n) with ⟨t, ht⟩
    cases hc : o.countResult n with
    | error e =>
      refine ⟨t, ?_⟩
      rw [analyzeCollections_cons, ht]
      simp [analyzeOne, hc]
    | ok c =>
      refine ⟨analyzedInfo o n c :: t, ?_⟩
      rw [analyzeCollections_cons, ht]
      simp [analyzeOne, hc]

/-! ## C3 -/

/-- C3 (counterexample): under schemaFailOracle the schema probe of users
fails with an underlying request failure, yet discoverCollections returns
users in the CollectionInfo sequence (carrying the error in its schema
descriptor, so it will be attempted in the backup phase) and records no
discovery error: the run's stats are returned unchanged, errors still
empty. -/
theorem schema_probe_failure_cex :
    schemaFailOracle.schemaPage "users" = .error "HTTP 500: Internal Server Error" ∧
    discoverCollections schemaFailOracle initialStats =
      .ok ([{ name := "users", count := 5
              schema := { collection := "users", fields := [], totalDocs := 0, sampleDoc := none
                          error := some "HTTP 500: Internal Server Error" }
              hasData := true }], initialStats) := ⟨rfl, rfl⟩

/-- C3 (amended): a schema probe request failure during discovery is
absorbed by getCollectionSchema, which returns a descriptor carrying the
error; provided that collection's own count probe succeeds, the collection
is included in the returned CollectionInfo sequence with that descriptor
(so it is attempted in the backup phase), and no discovery error is
recorded for it: every entry of the returned stats.errors either predates
the discovery phase or names a different collection (only a count probe
failure is recorded in stats.errors and excluded). -/
theorem schema_probe_failure_absorbed (o : RunOracle) (stats : Stats) (a : Access)
    (pre post : List String) (c : Nat) (cname e : String)
    (hacc : o.discoverAccess = .ok a)
    (hnames : a.collections.map Prod.fst = pre ++ cname :: post)
    (hschema : o.schemaPage cname = .error e)
    (hcount : o.countResult cname = .ok c) :
    ∃ infos stats2, discoverCollections o stats = .ok (infos, stats2) ∧
      ({ name := cname, count := c
         schema := { collection := cname, fields := [], totalDocs := 0, sampleDoc := none
                     error := some e }
         hasData := decide (0 < c) } : CollectionInfo) ∈ infos ∧
      ∀ err ∈ stats2.errors, err ∈ stats.errors ∨ err.collection ≠ some cname := by
  have hd : discoverCollections o stats =
      .ok (analyzeCollections o (pre ++ cname :: post) ([], stats)) := by
    simp [discoverCollections, clientDiscoverCollections, hacc, hnames]
  set A := analyzeCollections o pre (([] : List CollectionInfo), stats) with hA
  have hsplit : analyzeCollections o (pre ++ cname :: post) ([], stats) =
      analyzeCollections o post (analyzeOne o A cname) := by
    rw [analyzeCollections_append, analyzeCollections_cons]
  have hinfo : analyzedInfo o cname c =
      { name := cname, count := c
        schema := { collection := cname, fields := [], totalDocs := 0, sampleDoc := none
                    error := some e }
        hasData := decide (0 < c) } := by
    simp [analyzedInfo, getCollectionSchema, hschema]
  have hstep : analyzeOne o A cname = (A.1 ++ [analyzedInfo o cname c], A.2) := by
    simp [analyzeOne, hcount]
  rcases analyzeCollections_infos_extend o post (analyzeOne o A cname) with ⟨t, ht⟩
  rcases analyzeCollections_errors_from_failures o (pre ++ cname :: post) ([], stats)
    with ⟨terr, hterr, hsrc⟩
  refine ⟨(analyzeCollections o (pre ++ cname :: post) ([], stats)).1,
          (analyzeCollections o (pre ++ cname :: post) ([], stats)).2, ?_, ?_, ?_⟩
  · rw [hd]
  · rw [hsplit, ht, hstep, hinfo]
    simp
  · intro err herr
    rw [hterr] at herr
    rcases List.mem_append.mp herr with herr | herr
    · exact Or.inl herr
    · refine Or.inr ?_
      rcases hsrc err herr with ⟨n, hn, hcoll, e2, he2⟩
      intro hcontra
      rw [hcoll] at hcontra
      injection hcontra with hne
      rw [hne, hcount] at he2
      exact absurd he2 (by simp)

theorem schema_probe_failure_absorbed_witness :
    ∃ infos stats2, discoverCollections schemaFailOracle initialStats = .ok (infos, stats2) ∧
      ({ name := "users", count := 5
         schema := { collection := "users", fields := [], totalDocs := 0, sampleDoc := none
                     error := some "HTTP 500: Internal Server Error" }
         hasData := decide (0 < 5) } : CollectionInfo) ∈ infos ∧
      ∀ err ∈ stats2.errors, err ∈ initialStats.errors ∨ err.collection ≠ some "users" :=
  schema_probe_failure_absorbed schemaFailOracle initialStats
    { canAccessAdmin := true, collections := [("users", ())] } [] [] 5 "users"
    "HTTP 500: Internal Server Error" rfl rfl rfl rfl

/-! ## C6 -/

/-- C6: if exactly one of the candidate collection names throws during its
count/schema probing (only the count probe can throw: the schema probe
absorbs its failures), the returned CollectionInfo sequence has length
N − 1 and stats.errors gains exactly one entry, with that collection's
name and phase discovery; the remaining counters are untouched. -/
theorem discovery_isolates_single_failure (o : RunOracle) (stats : Stats) (a : Access)
    (pre post : List String) (bad e : String)
    (hacc : o.discoverAccess = .ok a)
    (hnames : a.collections.map Prod.fst = pre ++ bad :: post)
    (hbad : o.countResult bad = .error e)
    (hpre : ∀ n, n ∈ pre → ∃ c, o.countResult n = .ok c)
    (hpost : ∀ n, n ∈ post → ∃ c, o.countResult n = .ok c) :
    ∃ infos stats2, discoverCollections o stats = .ok (infos, stats2) ∧
      infos.length = (pre ++ bad :: post).length - 1 ∧
      stats2.errors = stats.errors ++
        [{ collection := some bad, phase := "discovery", error := e }] ∧
      stats2.failedCollections = stats.failedCollections ∧
      stats2.successfulCollections = stats.successfulCollections ∧
      stats2.totalRecords = stats.totalRecords := by
  have hd : discoverCollections o stats =
      .ok (analyzeCollections o (pre ++ bad :: post) ([], stats)) := by
    simp [discoverCollections, clientDiscoverCollections, hacc, hnames]
  set A := analyzeCollections o pre (([] : List CollectionInfo), stats) with hA
  have hAok := analyzeCollections_all_ok o pre ([], stats) hpre
  have hstep : analyzeOne o A bad =
      (A.1, { A.2 with errors := A.2.errors ++
        [{ collection := some bad, phase := "discovery", error := e }] }) := by
    simp [analyzeOne, hbad]
  have hpostok := analyzeCollections_all_ok o post (analyzeOne o A bad) hpost
  have hsplit : analyzeCollections o (pre ++ bad :: post) ([], stats) =
      analyzeCollections o post (analyzeOne o A bad) := by
    rw [analyzeCollections_append, analyzeCollections_cons]
  have hstats2 : (analyzeCollections o post (analyzeOne o A bad)).2 =
      { stats with errors := stats.errors ++
        [{ collection := some bad, phase := "discovery", error := e }] } := by
    rw [hpostok.1, hstep]
    have hA2 : A.2 = stats := by simpa using hAok.1
    rw [hA2]
  refine ⟨(analyzeCollections o post (analyzeOne o A bad)).1,
         (analyzeCollections o post (analyzeOne o A bad)).2, ?_, ?_, ?_, ?_, ?_, ?_⟩
  · rw [hd, hsplit]
  · have h1 := hpostok.2
    have h2 : A.1.length = pre.length := by simpa using hAok.2
    have h3 : (analyzeOne o A bad).1.length = A.1.length := by rw [hstep]
    simp only [List.length_append, List.length_cons] at h1 ⊢
    omega
  · rw [hstats2]
  · rw [hstats2]
  · rw [hstats2]
  · rw [hstats2]

theorem discovery_isolates_single_failure_witness :
    ∃ infos stats2, discoverCollections discoveryFailOracle initialStats = .ok (infos, stats2) ∧
      infos.length = (["users"] ++ "media" :: ["posts"]).length - 1 ∧
      stats2.errors = initialStats.errors ++
        [{ collection := some "media", phase := "discovery", error := "HTTP 403: Forbidden" }] ∧
      stats2.failedCollections = initialStats.failedCollections ∧
      stats2.successfulCollections = initialStats.successfulCollections ∧
      stats2.totalRecords = initialStats.totalRecords :=
  discovery_isolates_single_failure discoveryFailOracle initialStats
    { canAccessAdmin := true, collections := [("users", ()), ("media", ()), ("posts", ())] }
    ["users"] ["posts"] "media" "HTTP 403: Forbidden" rfl rfl (by rfl)
    (by
      intro n hn
      rw [List.mem_singleton] at hn
      subst hn
      exact ⟨2, rfl⟩)
    (by
      intro n hn
      rw [List.mem_singleton] at hn
      subst hn
      exact ⟨2, rfl⟩)

/-! ## C8 -/

/-- C8: validateConnection catches any error thrown by getAccess and
returns false instead of re-throwing; and whenever it returns false (with
the environment configuration resolved), performBackup attempts neither
the discovery nor the backup phase and returns a result with
success = false and backupPath = null. -/
theorem failed_validation_aborts (o : RunOracle) (env : String) (stats0 : Stats) (e : String)
    (hconf : o.configResult = .ok ())
    (hacc : o.validateAccess = .error e) :
    validateConnection o.validateAccess = false ∧
    (performBackup o env stats0).1.success = false ∧
    (performBackup o env stats0).1.backupPath = none ∧
    "discovery" ∉ (performBackup o env stats0).2.2 ∧
    "backup" ∉ (performBackup o env stats0).2.2 := by
  have hv : validateConnection o.validateAccess = false := by rw [hacc]; rfl
  have hcore : performBackupCore o stats0 =
      (none, [], pushGeneralError { stats0 with startTime := some o.startClock }
        "API connection failed, cannot continue backup", ["validate"]) := by
    simp [performBackupCore, hconf, hv]
  have hres : (performBackup o env stats0).1 = getBackupResult env none []
      (pushGeneralError { stats0 with startTime := some o.startClock }
        "API connection failed, cannot continue backup") := by
    show getBackupResult env (performBackupCore o stats0).1 (performBackupCore o stats0).2.1
      (performBackupCore o stats0).2.2.1 = _
    rw [hcore]
  have hph : (performBackup o env stats0).2.2 = ["validate"] := by
    show (performBackupCore o stats0).2.2.2 = _
    rw [hcore]
  refine ⟨hv, ?_, ?_, ?_, ?_⟩
  · rw [hres, Bool.eq_false_iff]
    intro hs
    rcases (getBackupResult_success_iff _ _ _ _).mp hs with ⟨-, herrs⟩
    simp [pushGeneralError] at herrs
  · rw [hres]; rfl
  · rw [hph]; simp
  · rw [hph]; simp

theorem failed_validation_aborts_witness :
    validateConnection connectionFailOracle.validateAccess = false ∧
    (performBackup connectionFailOracle "test" initialStats).1.success = false ∧
    (performBackup connectionFailOracle "test" initialStats).1.backupPath = none ∧
    "discovery" ∉ (performBackup connectionFailOracle "test" initialStats).2.2 ∧
    "backup" ∉ (performBackup connectionFailOracle "test" initialStats).2.2 :=
  failed_validation_aborts connectionFailOracle "test" initialStats
    "Request timeout: /access" rfl rfl

/-! ## C9 -/

/-- C9 (counterexample): the claim fails as stated over all client
operations, because testBasicConnection calls this.request directly,
bypassing the limitedRequest gate: with concurrency limit 1, two
concurrently issued testBasicConnection requests form a trace the client
admits, and along it two requests are simultaneously in flight. -/
theorem concurrency_cap_cex :
    ValidTrace 1 0 0 ungatedTraceEx ∧
    ¬ (∀ s ∈ statesAlong (0, 0) ungatedTraceEx, s.1 + s.2 ≤ 1) := by
  constructor
  · exact .startUngated 0 0 .testBasicConnection _ rfl
      (.startUngated 0 1 .testBasicConnection _ rfl (.nil 0 2))
  · decide

/-- C9 (amended): for the client operations dispatched through
limitedRequest (getAccess, getCollectionCount, getCollectionData and their
derivatives — every operation except testBasicConnection), the number of
gated requests simultaneously in flight never exceeds the configured
concurrency limit cap: along every trace the admission discipline allows
from a state within the budget, every visited state keeps at most cap
gated requests outstanding. -/
theorem gated_requests_bounded (cap g u : Nat) (tr : List ReqEvent)
    (hv : ValidTrace cap g u tr) (hg : g ≤ cap) :
    ∀ s ∈ statesAlong (g, u) tr, s.1 ≤ cap := by
  revert hg
  induction hv with
  | nil gg uu =>
    intro hg s hs
    simp [statesAlong] at hs
    subst hs
    exact hg
  | startGated gg uu op tr hop hlt hvv ih =>
    intro hg s hs
    simp only [statesAlong, stepEvent, hop, if_true, List.mem_cons] at hs
    rcases hs with rfl | hs
    · exact hg
    · exact ih hlt s hs
  | startUngated gg uu op tr hop hvv ih =>
    intro hg s hs
    simp only [statesAlong, stepEvent, hop, Bool.false_eq_true, if_false, List.mem_cons] at hs
    rcases hs with rfl | hs
    · exact hg
    · exact ih hg s hs
  | settleGated gg uu op tr hop hvv ih =>
    intro hg s hs
    simp only [statesAlong, stepEvent, hop, if_true, Nat.add_sub_cancel, List.mem_cons] at hs
    rcases hs with rfl | hs
    · exact hg
    · exact ih (Nat.le_of_succ_le hg) s hs
  | settleUngated gg uu op tr hop hvv ih =>
    intro hg s hs
    simp only [statesAlong, stepEvent, hop, Bool.false_eq_true, if_false, Nat.add_sub_cancel,
      List.mem_cons] at hs
    rcases hs with rfl | hs
    · exact hg
    · exact ih hg s hs

theorem gatedTraceEx_valid : ValidTrace 1 0 0 gatedTraceEx :=
  .startGated 0 0 .getAccess _ rfl (by omega)
    (.settleGated 0 0 .getAccess _ rfl
      (.startGated 0 0 (.getCollectionCount "users") _ rfl (by omega) (.nil 1 0)))

theorem gated_requests_bounded_witness :
    (statesAlong (0, 0) gatedTraceEx).all (fun s => decide (s.1 ≤ 1)) = true := by
  have h := gated_requests_bounded 1 0 0 gatedTraceEx gatedTraceEx_valid (by omega)
  simp only [List.all_eq_true, decide_eq_true_eq]
  exact fun s hs => h s hs

/-! ## C10 -/

theorem statsLE_refl (s : Stats) : StatsLE s s :=
  ⟨le_rfl, le_rfl, le_rfl, [], by simp⟩

theorem statsLE_trans {s1 s2 s3 : Stats} (h1 : StatsLE s1 s2) (h2 : StatsLE s2 s3) :
    StatsLE s1 s3 := by
  obtain ⟨a1, b1, c1, t1, ht1⟩ := h1
  obtain ⟨a2, b2, c2, t2, ht2⟩ := h2
  exact ⟨le_trans a1 a2, le_trans b1 b2, le_trans c1 c2, t1 ++ t2,
    by rw [ht2, ht1, List.append_assoc]⟩

theorem backupCollection_statsLE (o : RunOracle) (stats : Stats) (info : CollectionInfo) :
    StatsLE stats (backupCollection o stats info).1 := by
  by_cases h0 : info.count = 0
  · simp only [backupCollection, h0, if_pos]
    exact statsLE_refl stats
  · cases hd : o.saveDataResult info.name (getAllCollectionData (o.dataPage info.name) o.fuel) with
    | error e =>
      simp only [backupCollection, if_neg h0, hd]
      exact ⟨le_rfl, le_rfl, Nat.le_add_right _ _, _, rfl⟩
    | ok u =>
      cases hs : o.saveSchemaResult info.name with
      | error e =>
        simp only [backupCollection, if_neg h0, hd, hs]
        exact ⟨le_rfl, le_rfl, Nat.le_add_right _ _, _, rfl⟩
      | ok v =>
        simp only [backupCollection, if_neg h0, hd, hs]
        exact ⟨Nat.le_add_right _ _, Nat.le_add_right _ _, le_rfl, [], by simp⟩

theorem backupAll_statsLE (o : RunOracle) :
    ∀ (collections : List CollectionInfo) (stats : Stats),
    StatsLE stats (backupAll o stats collections) := by
  intro collections
  induction collections with
  | nil => intro stats; exact statsLE_refl stats
  | cons info rest ih =>
    intro stats
    exact statsLE_trans (backupCollection_statsLE o stats info) (ih _)

theorem analyzeOne_statsLE (o : RunOracle) (acc : List CollectionInfo × Stats) (n : String) :
    StatsLE acc.2 (analyzeOne o acc n).2 := by
  unfold analyzeOne
  split
  · exact ⟨le_rfl, le_rfl, le_rfl, _, rfl⟩
  · exact statsLE_refl _

theorem analyzeCollections_statsLE (o : RunOracle) :
    ∀ (names : List String) (acc : List CollectionInfo × Stats),
    StatsLE acc.2 (analyzeCollections o names acc).2 := by
  intro names
  induction names with
  | nil => intro acc; exact statsLE_refl _
  | cons n ns ih =>
    intro acc
    exact statsLE_trans (analyzeOne_statsLE o acc n) (ih _)

theorem discoverCollections_statsLE (o : RunOracle) (stats : Stats)
    (collections : List CollectionInfo) (stats1 : Stats)
    (h : discoverCollections o stats = .ok (collections, stats1)) : StatsLE stats stats1 := by
  unfold discoverCollections at h
  cases hc : clientDiscoverCollections o.discoverAccess with
  | error e => rw [hc] at h; exact absurd h (by simp)
  | ok names =>
    rw [hc] at h
    injection h with h2
    have h3 := analyzeCollections_statsLE o names ([], stats)
    rw [h2] at h3
    exact h3

theorem pushGeneralError_statsLE (stats : Stats) (msg : String) :
    StatsLE stats (pushGeneralError stats msg) :=
  ⟨le_rfl, le_rfl, le_rfl, _, rfl⟩

theorem statsLE_set_fields (s : Stats) (t1 t2 : Option Nat) (n : Nat) :
    StatsLE s { s with startTime := t1, endTime := t2, totalCollections := n } :=
  ⟨le_rfl, le_rfl, le_rfl, [], by simp⟩

theorem performBackupCore_statsLE (o : RunOracle) (stats0 : Stats) :
    StatsLE stats0 (performBackupCore o stats0).2.2.1 := by
  have h0 : StatsLE stats0 { stats0 with startTime := some o.startClock } :=
    ⟨le_rfl, le_rfl, le_rfl, [], by simp⟩
  unfold performBackupCore
  cases hc : o.configResult with
  | error e => exact statsLE_trans h0 (pushGeneralError_statsLE _ _)
  | ok u =>
    dsimp only
    by_cases hv : validateConnection o.validateAccess = true
    · rw [if_pos hv]
      cases hd : discoverCollections o { stats0 with startTime := some o.startClock } with
      | error e => exact statsLE_trans h0 (pushGeneralError_statsLE _ _)
      | ok pair =>
        obtain ⟨collections, stats1⟩ := pair
        dsimp only
        have hle1 : StatsLE stats0 stats1 :=
          statsLE_trans h0 (discoverCollections_statsLE o _ collections stats1 hd)
        have hle2 : StatsLE stats1 { stats1 with totalCollections := collections.length } :=
          ⟨le_rfl, le_rfl, le_rfl, [], by simp⟩
        by_cases hl : collections.length = 0
        · rw [if_pos hl]
          exact statsLE_trans hle1 hle2
        · rw [if_neg hl]
          refine statsLE_trans hle1 (statsLE_trans hle2 ?_)
          refine statsLE_trans (backupAll_statsLE o collections _) ?_
          exact ⟨le_rfl, le_rfl, le_rfl, [], by simp⟩
    · rw [if_neg hv]
      exact statsLE_trans h0 (pushGeneralError_statsLE _ _)

/-- C10: the statistics object is initialized only in the constructor;
performBackup sets startTime but never resets the counters or the error
list, so a second performBackup call on the same instance starts from the
first run's final stats: unconditionally, the second result's statistics
include the first run's accumulated counts and error entries (StatsLE:
each counter at least as large, the first run's error list a prefix), and
its success flag is false whenever the first run recorded any failed
collection or any error entry. -/
theorem second_run_accumulates (o1 o2 : RunOracle) (env1 env2 : String) (s0 : Stats) :
    StatsLE (performBackup o1 env1 s0).2.1
      (performBackup o2 env2 (performBackup o1 env1 s0).2.1).1.statistics ∧
    ((performBackup o1 env1 s0).2.1.failedCollections ≠ 0 ∨
      (performBackup o1 env1 s0).2.1.errors ≠ [] →
      (performBackup o2 env2 (performBackup o1 env1 s0).2.1).1.success = false) := by
  set s1 := (performBackup o1 env1 s0).2.1 with hs1
  have hmono : StatsLE s1 (performBackup o2 env2 s1).2.1 := performBackupCore_statsLE o2 s1
  have hstat : (performBackup o2 env2 s1).1.statistics = (performBackup o2 env2 s1).2.1 := rfl
  refine ⟨by rw [hstat]; exact hmono, ?_⟩
  intro h
  have hsucc : (performBackup o2 env2 s1).1.success =
      (decide ((performBackup o2 env2 s1).2.1.failedCollections = 0) &&
        decide ((performBackup o2 env2 s1).2.1.errors.length = 0)) := rfl
  obtain ⟨-, -, hfail, t, ht⟩ := hmono
  rcases h with h | h
  · have h2 : (performBackup o2 env2 s1).2.1.failedCollections ≠ 0 := by omega
    rw [hsucc]
    simp [h2]
  · have hl : s1.errors.length ≠ 0 := fun hh => h (List.length_eq_zero.mp hh)
    have h2 : (performBackup o2 env2 s1).2.1.errors.length ≠ 0 := by
      rw [ht]
      simp only [List.length_append]
      omega
    rw [hsucc]
    simp [h2]

theorem second_run_accumulates_witness :
    StatsLE (performBackup configFailOracle "test" initialStats).2.1
      (performBackup configFailOracle "test"
        (performBackup configFailOracle "test" initialStats).2.1).1.statistics ∧
    (performBackup configFailOracle "test"
      (performBackup configFailOracle "test" initialStats).2.1).1.success = false :=
  ⟨(second_run_accumulates configFailOracle configFailOracle "test" "test" initialStats).1,
   (second_run_accumulates configFailOracle configFailOracle "test" "test" initialStats).2
     (Or.inr (by decide))⟩

end Archiver
